import Mathlib

/-!
# Verification of the WaveSim screenshot-capture utility

Shallow embedding of `src/utils/screenshot_capture.py`.  The script is
sequential orchestration of filesystem path construction, one external
process invocation, and text formatting.  External effects are modelled by
explicit event values supplied through an environment:

* the `screencapture` subprocess call is a `CaptureEvent` (its return code
  and whether the output file exists afterwards, or the exception it raises);
* each `input()` prompt is a `PromptEvent` (the operator presses Enter or
  interrupts with Ctrl-C);
* `datetime.now()` is a `DateTime` value;
* the directory set of the filesystem is a `List String`, and the listing of
  the screenshots directory a `List String` of filenames.

Python exceptions are modelled with the `Except` monad: a `.error` value that
reaches the top level is an exception propagating past the dispatcher.
-/

set_option maxHeartbeats 1000000

namespace ScreenshotCapture

/-- The Python exceptions named in the script
(`KeyboardInterrupt`, `subprocess.CalledProcessError`). -/
inductive PyExc where
  | keyboardInterrupt
  | calledProcessError
deriving DecidableEq, Repr

/-- Outcome of one `subprocess.run(['screencapture', '-i', '-x', filepath])`
call: either the process completes with `returncode`, with `fileExists`
recording the value of the subsequent `os.path.exists(filepath)` check, or
the call raises. -/
inductive CaptureEvent where
  | completed (returncode : Int) (fileExists : Bool)
  | raisedCalledProcessError
  | raisedKeyboardInterrupt
deriving DecidableEq, Repr

/-- What the operator does at an `input()` prompt. -/
inductive PromptEvent where
  | enter
  | interrupt
deriving DecidableEq, Repr

/-- A `datetime.now()` value. -/
structure DateTime where
  year : Nat
  month : Nat
  day : Nat
  hour : Nat
  minute : Nat
  second : Nat
  micro : Nat
deriving DecidableEq, Repr

/-- The invariants Python's `datetime` guarantees for `datetime.now()`
(year at most 9999, microseconds below one million, ...); the embedding of
`strftime` is faithful on this domain. -/
def DateTime.Valid (dt : DateTime) : Prop :=
  1000 ≤ dt.year ∧ dt.year ≤ 9999 ∧ 1 ≤ dt.month ∧ dt.month ≤ 12 ∧
  1 ≤ dt.day ∧ dt.day ≤ 31 ∧ dt.hour ≤ 23 ∧ dt.minute ≤ 59 ∧
  dt.second ≤ 59 ∧ dt.micro < 1000000

instance (dt : DateTime) : Decidable dt.Valid := by
  unfold DateTime.Valid; infer_instance

/-- The decimal digit character for `n % 10`. -/
def decDigit (n : Nat) : Char := Char.ofNat (48 + n % 10)

/-- Zero-padded fixed-width decimal rendering, as `strftime` produces for
`%Y` (width 4), `%m`/`%d`/`%H`/`%M`/`%S` (width 2) and `%f` (width 6). -/
def padDigits : Nat → Nat → List Char
  | 0, _ => []
  | w + 1, n => padDigits w (n / 10) ++ [decDigit n]

/-- `datetime.now().strftime("%Y%m%d_%H%M%S_%f")` as a character list. -/
def strftimeYmdHMSf (dt : DateTime) : List Char :=
  padDigits 4 dt.year ++ padDigits 2 dt.month ++ padDigits 2 dt.day ++ '_' ::
    (padDigits 2 dt.hour ++ padDigits 2 dt.minute ++ padDigits 2 dt.second) ++ '_' ::
    padDigits 6 dt.micro

/-- The `[:-3]` slice: `strftime("%Y%m%d_%H%M%S_%f")[:-3]` drops the last
three characters, leaving a three-digit millisecond field. -/
def timestampChars (dt : DateTime) : List Char :=
  (strftimeYmdHMSf dt).take ((strftimeYmdHMSf dt).length - 3)

/-- The environment a run of the script interacts with. -/
structure Env where
  prompt : Nat → PromptEvent
  capture : Nat → CaptureEvent
  now : Nat → DateTime
  dirs : List String
  listing : List String

/-- `os.path.join(project_root, "WaveSimScreenshots")`; the project root is
the abstract directory computed by `get_project_root`. -/
def screenshots_dir (root : String) : String := root ++ "/WaveSimScreenshots"

/-- `os.makedirs(d, exist_ok=True)` on the directory set `fs`: creates `d`
when absent, silently reuses it when present. -/
def makedirs (fs : List String) (d : String) : List String :=
  if d ∈ fs then fs else d :: fs

/-- `create_screenshots_directory()`: make the screenshots directory and
return (new filesystem state, the directory path). -/
def create_screenshots_directory (root : String) (fs : List String) :
    List String × String :=
  (makedirs fs (screenshots_dir root), screenshots_dir root)

/-- `f"{filename_prefix}_{timestamp}.png"`. -/
def screenshot_filename (pfx : String) (dt : DateTime) : String :=
  pfx ++ "_" ++ String.mk (timestampChars dt) ++ ".png"

/-- `os.path.join(screenshots_dir, filename)`. -/
def screenshot_filepath (root pfx : String) (dt : DateTime) : String :=
  screenshots_dir root ++ "/" ++ screenshot_filename pfx dt

/-- The `subprocess.run` call itself: completes with (returncode,
file-exists) or raises the corresponding exception. -/
def runCaptureProcess (ev : CaptureEvent) : Except PyExc (Int × Bool) :=
  match ev with
  | .completed rc ex => .ok (rc, ex)
  | .raisedCalledProcessError => .error .calledProcessError
  | .raisedKeyboardInterrupt => .error .keyboardInterrupt

/-- `take_screenshot(filename_prefix, description)`: build the timestamped
path, run the capture, return the path on `returncode == 0` and an existing
file, `None` otherwise; `except subprocess.CalledProcessError` and
`except KeyboardInterrupt` both return `None`. -/
def take_screenshot (root pfx : String) (dt : DateTime) (ev : CaptureEvent) :
    Except PyExc (Option String) :=
  let filepath := screenshot_filepath root pfx dt
  match runCaptureProcess ev with
  | .ok (rc, ex) => .ok (if rc = 0 ∧ ex = true then some filepath else none)
  | .error .calledProcessError => .ok none
  | .error .keyboardInterrupt => .ok none

/-- The value `take_screenshot` returns: it catches both exceptions it can
see, so it always returns; the constructed path exactly on exit code zero
with the output file present, `None` otherwise. -/
def takeResult (root pfx : String) (dt : DateTime) (ev : CaptureEvent) :
    Option String :=
  match ev with
  | .completed rc ex =>
    if rc = 0 ∧ ex = true then some (screenshot_filepath root pfx dt) else none
  | _ => none

/-- The fixed six-step capture sequence, verbatim from the script. -/
def sequence : List (String × String) :=
  [("initial", "Initial state: Clean interface with wave simulation ready"),
   ("wave_sources", "Wave sources: Show multiple wave sources creating interference patterns"),
   ("wave_propagation", "Wave propagation: Capture waves spreading across the simulation"),
   ("interference", "Interference patterns: Show complex wave interactions and interference"),
   ("wall_interaction", "Wall interactions: Demonstrate wave reflection and barriers"),
   ("controls_panel", "Controls panel: Show the UI with wave parameters and tools")]

/-- The loop body of `guided_screenshot_sequence`, indexed by the number of
steps already run.  The `input("Press Enter when ready...")` call is outside
any `try`, so an interrupt there raises; a successful `take_screenshot`
result is appended as `(prefix, filepath, description)`.  The second
component counts the `take_screenshot` calls made. -/
def runSeq (env : Env) (root : String) :
    Nat → List (String × String) →
    Except PyExc (List (String × String × String) × Nat)
  | _, [] => .ok ([], 0)
  | i, (pfx, desc) :: rest =>
    match env.prompt i with
    | .interrupt => .error .keyboardInterrupt
    | .enter =>
      match take_screenshot root pfx (env.now i) (env.capture i) with
      | .error e => .error e
      | .ok r =>
        match runSeq env root (i + 1) rest with
        | .error e => .error e
        | .ok (tail, n) =>
          .ok ((match r with
                | some fp => (pfx, fp, desc) :: tail
                | none => tail), n + 1)

/-- `guided_screenshot_sequence()`: run the six fixed steps; returns the list
of successful `(prefix, filepath, description)` records together with the
number of capture attempts made. -/
def guided_screenshot_sequence (env : Env) (root : String) :
    Except PyExc (List (String × String × String) × Nat) :=
  runSeq env root 0 sequence

/-- `str.lower` on a character list. -/
def lowerChars (l : List Char) : List Char := l.map Char.toLower

/-- The literal `'.png'`. -/
def pngExt : List Char := ".png".data

/-- `file.lower().endswith('.png')`. -/
def isPngFile (f : String) : Bool := pngExt.isSuffixOf (lowerChars f.data)

/-- Python string `<=`: lexicographic comparison by code points. -/
def lexLe : List Char → List Char → Bool
  | [], _ => true
  | _ :: _, [] => false
  | a :: as, b :: bs => if a < b then true else if a = b then lexLe as bs else false

/-- Python string `<=` on filenames, as used by `list.sort()`. -/
def pyLe (a b : String) : Prop := lexLe a.data b.data = true

instance : DecidableRel pyLe :=
  fun a b => inferInstanceAs (Decidable (lexLe a.data b.data = true))

/-- One step of Python `str.title()`: an alphabetic character is uppercased
when the previous character was not alphabetic and lowercased otherwise;
other characters pass through and reset the word. -/
def titleAux : Bool → List Char → List Char
  | _, [] => []
  | prevCased, c :: rest =>
    (if c.isAlpha then (if prevCased then c.toLower else c.toUpper) else c)
      :: titleAux c.isAlpha rest

/-- Python `str.title()`. -/
def titlecase (l : List Char) : List Char := titleAux false l

/-- Scanner for Python `str.replace(pat, rep)`: with `skip = 0`, a position
where `pat` is a prefix emits `rep` and skips the matched characters (the
first immediately, the remaining `pat.length - 1` through the counter);
any other character passes through.  Occurrences are non-overlapping,
scanned left to right, exactly as `str.replace` does. -/
def replaceAux (pat rep : List Char) : Nat → List Char → List Char
  | _, [] => []
  | skip + 1, _ :: rest => replaceAux pat rep skip rest
  | 0, c :: rest =>
    if pat.isPrefixOf (c :: rest) then
      rep ++ replaceAux pat rep (pat.length - 1) rest
    else
      c :: replaceAux pat rep 0 rest

/-- Python `str.replace(pat, rep)` for a non-empty pattern (the script only
uses the patterns `'.png'` and `'_'`). -/
def listReplace (pat rep l : List Char) : List Char := replaceAux pat rep 0 l

/-- `filename.replace('.png', '').replace('_', ' ').title()`. -/
def altName (f : String) : String :=
  String.mk (titlecase (listReplace "_".data " ".data (listReplace pngExt [] f.data)))

/-- `f"Wave Simulation - {name_part}"`. -/
def alt_text (f : String) : String := "Wave Simulation - " ++ altName f

/-- `f"![{alt_text}](WaveSimScreenshots/{filename})\n\n"`. -/
def embedLine (f : String) : String :=
  "![" ++ alt_text f ++ "](WaveSimScreenshots/" ++ f ++ ")\n\n"

/-- Concatenation of the generated lines (`markdown += line` in a loop). -/
def joinLines : List String → String
  | [] => ""
  | x :: xs => x ++ joinLines xs

/-- The `markdown` accumulator: starts at `"## Screenshots\n\n"` and appends
one embed line per listed file. -/
def mkMarkdown (files : List String) : String :=
  files.foldl (fun md f => md ++ embedLine f) "## Screenshots\n\n"

/-- The sorted selection of files the mode lists: filter the directory
listing by `file.lower().endswith('.png')`, then `sort()` (a stable
comparison sort by Python string `<=`; stability is irrelevant here since
equal keys are identical strings). -/
def readmeFiles (listing : List String) : List String :=
  (listing.filter isPngFile).insertionSort pyLe

/-- `update_readme_with_screenshots()`: create the screenshots directory,
check `os.path.exists` on it, collect and sort the PNG filenames; with none
found print the notice and return no Markdown, otherwise produce the
Markdown text.  Returns (filesystem state, result of the existence check,
optional Markdown). -/
def update_readme_with_screenshots (root : String) (fs listing : List String) :
    List String × Bool × Option String :=
  let fs2 := (create_screenshots_directory root fs).1
  let dir := (create_screenshots_directory root fs).2
  let dirExists : Bool := decide (dir ∈ fs2)
  let files := (if dirExists then listing.filter isPngFile else []).insertionSort pyLe
  (fs2, dirExists, if files.isEmpty then none else some (mkMarkdown files))

/-- Which of the five dispatcher behaviors a run performed, with the data it
produced: the single capture's optional path, the guided sequence's record
list and attempt count, the Markdown mode's optional output, the help text,
or the unknown-option message. -/
inductive MainResult where
  | singleCapture (r : Option String)
  | sequenceMode (records : List (String × String × String)) (attempts : Nat)
  | updateReadme (md : Option String)
  | helpShown
  | unknownOption (arg : String)
deriving DecidableEq, Repr

/-- How many `take_screenshot` calls a completed run made. -/
def captureAttempts : MainResult → Nat
  | .singleCapture _ => 1
  | .sequenceMode _ n => n
  | _ => 0

/-- `main()`: dispatch on `sys.argv[1]` when `len(sys.argv) > 1`, else take a
single screenshot with the default prefix `"wave_sim"`. -/
def main (argv : List String) (env : Env) (root : String) :
    Except PyExc MainResult :=
  match argv with
  | _ :: arg :: _ =>
    if arg = "--sequence" then
      match guided_screenshot_sequence env root with
      | .error e => .error e
      | .ok (l, n) => .ok (.sequenceMode l n)
    else if arg = "--update-readme" then
      .ok (.updateReadme (update_readme_with_screenshots root env.dirs env.listing).2.2)
    else if arg = "--help" then
      .ok .helpShown
    else
      .ok (.unknownOption arg)
  | _ =>
    match take_screenshot root "wave_sim" (env.now 0) (env.capture 0) with
    | .error e => .error e
    | .ok r => .ok (.singleCapture r)

/-- The process exit code: 0 on a normal return from `main`; an uncaught
`KeyboardInterrupt` makes CPython exit with 130, any other uncaught
exception with 1.  The script sets no explicit exit code anywhere. -/
def programExitCode (argv : List String) (env : Env) (root : String) : Nat :=
  match main argv env root with
  | .ok _ => 0
  | .error .keyboardInterrupt => 130
  | .error .calledProcessError => 1

/-- The five dispatcher branches. -/
inductive Branch where
  | single
  | seq
  | readme
  | help
  | unknown
deriving DecidableEq, Repr

/-- The branch a result belongs to. -/
def branchOfResult : MainResult → Branch
  | .singleCapture _ => .single
  | .sequenceMode _ _ => .seq
  | .updateReadme _ => .readme
  | .helpShown => .help
  | .unknownOption _ => .unknown

/-- The branch the command line selects, as the spec words it: no argument
means a single capture, `--sequence` the guided sequence, `--update-readme`
the Markdown generation, `--help` the usage text, anything else the
unknown-option message. -/
def dispatchBranch (argv : List String) : Branch :=
  match argv with
  | _ :: arg :: _ =>
    if arg = "--sequence" then .seq
    else if arg = "--update-readme" then .readme
    else if arg = "--help" then .help
    else .unknown
  | _ => .single

/-- The per-step outcome the guided sequence should record for step `p`
(index, (prefix, description)): the successful capture's record, or nothing. -/
def seqOutcome (env : Env) (root : String) (p : Nat × String × String) :
    Option (String × String × String) :=
  match take_screenshot root p.2.1 (env.now p.1) (env.capture p.1) with
  | .ok (some fp) => some (p.2.1, fp, p.2.2)
  | _ => none

/-- The successful captures, in sequence order. -/
def expectedOutcomes (env : Env) (root : String) :
    List (String × String × String) :=
  (List.enumFrom 0 sequence).filterMap (seqOutcome env root)

/-- A timestamp component of the claimed shape
`YYYYMMDD_HHMMSS_mmm`: eight digits, an underscore, six digits, an
underscore, three digits. -/
def IsTimestamp (t : List Char) : Prop :=
  ∃ ymd hms mmm : List Char,
    t = ymd ++ '_' :: hms ++ '_' :: mmm ∧
    ymd.length = 8 ∧ hms.length = 6 ∧ mmm.length = 3 ∧
    ∀ c ∈ ymd ++ hms ++ mmm, c.isDigit = true

/-- Alt-text derivation as the claim words it: drop only the lowercase
suffix `.png` when present, replace underscores with spaces, title-case. -/
def claimAltName (f : String) : String :=
  String.mk (titlecase (listReplace "_".data " ".data
    (if pngExt.isSuffixOf f.data then f.data.take (f.data.length - 4) else f.data)))

/-- No occurrence of `.png` starts before the final suffix position in
`stem ++ ".png"`. -/
def NoEarlyPng (stem : List Char) : Prop :=
  ∀ i < stem.length, ¬ pngExt.isPrefixOf ((stem ++ pngExt).drop i) = true

instance (stem : List Char) : Decidable (NoEarlyPng stem) := by
  unfold NoEarlyPng; infer_instance

/-- A concrete capture time, 2024-03-07 09:05:03.123456. -/
def dt0 : DateTime := ⟨2024, 3, 7, 9, 5, 3, 123456⟩

/-- A run in which the operator interrupts at the very first
`input("Press Enter when ready...")` prompt. -/
def interruptedEnv : Env :=
  { prompt := fun _ => .interrupt
    capture := fun _ => .completed 0 true
    now := fun _ => dt0
    dirs := []
    listing := [] }

/-- A run in which the operator always presses Enter at prompts but
interrupts during every capture call itself. -/
def calmEnv : Env :=
  { prompt := fun _ => .enter
    capture := fun _ => .raisedKeyboardInterrupt
    now := fun _ => dt0
    dirs := []
    listing := [] }

/-- A run of the guided sequence in which captures 2 to 5 fail in four
different ways (non-zero exit, missing file, invocation error, interrupt
during the capture call) and captures 1 and 6 succeed. -/
def mixedEnv : Env :=
  { prompt := fun _ => .enter
    capture := fun i =>
      if i = 0 then .completed 0 true
      else if i = 1 then .completed 1 true
      else if i = 2 then .completed 0 false
      else if i = 3 then .raisedCalledProcessError
      else if i = 4 then .raisedKeyboardInterrupt
      else .completed 0 true
    now := fun _ => dt0
    dirs := []
    listing := [] }

/-! ## Basic lemmas -/

lemma take_screenshot_eq (root pfx : String) (dt : DateTime) (ev : CaptureEvent) :
    take_screenshot root pfx dt ev = .ok (takeResult root pfx dt ev) := by
  cases ev <;> rfl

lemma runSeq_spec (env : Env) (root : String)
    (h : ∀ i, env.prompt i = PromptEvent.enter) :
    ∀ (steps : List (String × String)) (i : Nat),
      runSeq env root i steps =
        .ok ((List.enumFrom i steps).filterMap (seqOutcome env root), steps.length) := by
  intro steps
  induction steps with
  | nil => intro i; rfl
  | cons pd rest ih =>
    intro i
    obtain ⟨pfx, desc⟩ := pd
    cases htr : takeResult root pfx (env.now i) (env.capture i) with
    | none =>
      have hout : seqOutcome env root (i, pfx, desc) = none := by
        simp [seqOutcome, take_screenshot_eq, htr]
      simp [runSeq, h i, take_screenshot_eq, htr, ih (i + 1), List.enumFrom,
        List.filterMap_cons, hout]
    | some fp =>
      have hout : seqOutcome env root (i, pfx, desc) = some (pfx, fp, desc) := by
        simp [seqOutcome, take_screenshot_eq, htr]
      simp [runSeq, h i, take_screenshot_eq, htr, ih (i + 1), List.enumFrom,
        List.filterMap_cons, hout]

lemma main_no_error (argv : List String) (env : Env) (root : String)
    (h : ∀ i, env.prompt i = PromptEvent.enter) :
    ∃ r, main argv env root = .ok r := by
  rcases argv with _ | ⟨p, _ | ⟨arg, rest⟩⟩
  · exact ⟨.singleCapture (takeResult root "wave_sim" (env.now 0) (env.capture 0)),
      by simp [main, take_screenshot_eq]⟩
  · exact ⟨.singleCapture (takeResult root "wave_sim" (env.now 0) (env.capture 0)),
      by simp [main, take_screenshot_eq]⟩
  · by_cases h1 : arg = "--sequence"
    · refine ⟨.sequenceMode ((List.enumFrom 0 sequence).filterMap (seqOutcome env root))
        sequence.length, ?_⟩
      simp [main, h1, guided_screenshot_sequence, runSeq_spec env root h sequence 0]
    · by_cases h2 : arg = "--update-readme"
      · exact ⟨.updateReadme (update_readme_with_screenshots root env.dirs env.listing).2.2,
          by simp [main, h1, h2]⟩
      · by_cases h3 : arg = "--help"
        · exact ⟨.helpShown, by simp [main, h1, h2, h3]⟩
        · exact ⟨.unknownOption arg, by simp [main, h1, h2, h3]⟩

/-! ## Claims -/

/-- C1: `take_screenshot` returns the constructed file path exactly when the
capture invocation exits with status zero and the output file exists
afterwards; in every other outcome (non-zero exit status, missing output
file, invocation error, or keyboard interrupt) it returns `None`, and it
never lets an exception escape the call site. -/
theorem C1_take_screenshot_result (root pfx : String) (dt : DateTime) (ev : CaptureEvent) :
    take_screenshot root pfx dt ev =
      .ok (if ev = CaptureEvent.completed 0 true
           then some (screenshot_filepath root pfx dt) else none) := by
  cases ev with
  | completed rc ex => cases ex <;> by_cases hrc : rc = 0 <;>
      simp [take_screenshot, runCaptureProcess, hrc]
  | raisedCalledProcessError => rfl
  | raisedKeyboardInterrupt => rfl

/-- C2: whenever the operator answers every prompt, the guided sequence
makes exactly six capture attempts, in the fixed order, however many of
them fail, and returns exactly the successful captures in sequence order as
`(prefix, filepath, description)` records. -/
theorem C2_guided_sequence_result (env : Env) (root : String)
    (h : ∀ i, env.prompt i = PromptEvent.enter) :
    guided_screenshot_sequence env root = .ok (expectedOutcomes env root, 6) := by
  rw [guided_screenshot_sequence, runSeq_spec env root h sequence 0]
  rfl

/-- Witness for C2: a run in which captures 2 to 5 fail in four different
ways still makes six attempts and returns the two successful records, in
order. -/
theorem C2_guided_sequence_result_witness :
    guided_screenshot_sequence mixedEnv "/proj" =
      .ok ([("initial", "/proj/WaveSimScreenshots/initial_20240307_090503_123.png",
             "Initial state: Clean interface with wave simulation ready"),
            ("controls_panel",
             "/proj/WaveSimScreenshots/controls_panel_20240307_090503_123.png",
             "Controls panel: Show the UI with wave parameters and tools")], 6) := by
  rw [C2_guided_sequence_result mixedEnv "/proj" (fun i => rfl)]
  rfl

/-- C4 counterexample: a keyboard interrupt while the guided sequence waits
at its `input()` prompt is not caught anywhere — it propagates past the
dispatcher as an exception, contradicting the claim that every keyboard
interrupt is caught locally. -/
theorem C4_counterexample_prompt_interrupt_escapes :
    main ["screenshot_capture.py", "--sequence"] interruptedEnv "/proj" =
      .error PyExc.keyboardInterrupt := rfl

/-- C4 (amended): on every run in which the operator never interrupts while
waiting at an interactive prompt, no exception propagates past the
dispatcher — every failure of the capture call itself (non-zero exit,
missing file, invocation error, or keyboard interrupt during the call) is
caught locally and degrades to a `None`/empty result.  (An interrupt at the
guided sequence's `input()` prompt, by contrast, escapes: see the
counterexample.) -/
theorem C4_no_exception_without_prompt_interrupt (argv : List String) (env : Env)
    (root : String) (h : ∀ i, env.prompt i = PromptEvent.enter) :
    ∃ r, main argv env root = .ok r :=
  main_no_error argv env root h

/-- Witness for C4: a sequence run in which every capture call raises a
keyboard interrupt still completes normally. -/
theorem C4_no_exception_witness :
    ∃ r, main ["screenshot_capture.py", "--sequence"] calmEnv "/proj" = .ok r :=
  C4_no_exception_without_prompt_interrupt _ calmEnv "/proj" (fun i => rfl)

/-- C5: a completed run performs exactly the one behavior its first optional
argument selects — no argument: single capture; `--sequence`: guided
sequence; `--update-readme`: Markdown generation; `--help`: usage text; any
other argument: the unknown-option message, with no capture performed. -/
theorem C5_dispatch_five_behaviors (argv : List String) (env : Env) (root : String)
    (r : MainResult) (h : main argv env root = .ok r) :
    branchOfResult r = dispatchBranch argv ∧
    (dispatchBranch argv = Branch.unknown → captureAttempts r = 0) := by
  rcases argv with _ | ⟨p, _ | ⟨arg, rest⟩⟩
  · simp only [main, take_screenshot_eq, Except.ok.injEq] at h
    subst h
    simp [branchOfResult, dispatchBranch]
  · simp only [main, take_screenshot_eq, Except.ok.injEq] at h
    subst h
    simp [branchOfResult, dispatchBranch]
  · simp only [main] at h
    by_cases h1 : arg = "--sequence"
    · rw [if_pos h1] at h
      cases hg : guided_screenshot_sequence env root with
      | error e => rw [hg] at h; simp at h
      | ok v =>
        rw [hg] at h
        obtain ⟨l, n⟩ := v
        simp only [Except.ok.injEq] at h
        subst h
        simp [branchOfResult, dispatchBranch, h1]
    · rw [if_neg h1] at h
      by_cases h2 : arg = "--update-readme"
      · rw [if_pos h2] at h
        simp only [Except.ok.injEq] at h
        subst h
        simp [branchOfResult, dispatchBranch, h1, h2]
      · rw [if_neg h2] at h
        by_cases h3 : arg = "--help"
        · rw [if_pos h3] at h
          simp only [Except.ok.injEq] at h
          subst h
          simp [branchOfResult, dispatchBranch, h1, h2, h3]
        · rw [if_neg h3] at h
          simp only [Except.ok.injEq] at h
          subst h
          simp [branchOfResult, dispatchBranch, captureAttempts, h1, h2, h3]

/-- Witness for C5: the unrecognized argument `--frob` lands in the
unknown-option branch and performs no capture. -/
theorem C5_dispatch_witness :
    branchOfResult (MainResult.unknownOption "--frob") =
      dispatchBranch ["screenshot_capture.py", "--frob"] ∧
    (dispatchBranch ["screenshot_capture.py", "--frob"] = Branch.unknown →
      captureAttempts (MainResult.unknownOption "--frob") = 0) :=
  C5_dispatch_five_behaviors ["screenshot_capture.py", "--frob"] calmEnv "/proj"
    (MainResult.unknownOption "--frob") rfl

/-- C7: creating the output directory is idempotent — the call always
returns the same fixed path, creates the directory when absent, leaves the
filesystem unchanged when it is present, and calling it twice leaves the
same state as calling it once. -/
theorem C7_create_directory_idempotent (root : String) (fs : List String) :
    (create_screenshots_directory root fs).2 = screenshots_dir root ∧
    screenshots_dir root ∈ (create_screenshots_directory root fs).1 ∧
    (screenshots_dir root ∈ fs → (create_screenshots_directory root fs).1 = fs) ∧
    create_screenshots_directory root (create_screenshots_directory root fs).1 =
      create_screenshots_directory root fs := by
  refine ⟨rfl, ?_, ?_, ?_⟩ <;>
    by_cases h : screenshots_dir root ∈ fs <;>
      simp [create_screenshots_directory, makedirs, h]

/-- Witness for C7: with the directory already present the filesystem is
left untouched. -/
theorem C7_create_directory_witness :
    (create_screenshots_directory "/proj" ["/proj/WaveSimScreenshots"]).1 =
      ["/proj/WaveSimScreenshots"] :=
  (C7_create_directory_idempotent "/proj" ["/proj/WaveSimScreenshots"]).2.2.1 (by decide)

/-- C8: every run in which the operator never interrupts at an interactive
prompt terminates with exit code 0, whatever the command line — capture
failure, capture cancellation, the no-screenshots-found case and the
unknown-option case included; the script sets no explicit exit code. -/
theorem C8_exit_code_zero (argv : List String) (env : Env) (root : String)
    (h : ∀ i, env.prompt i = PromptEvent.enter) :
    programExitCode argv env root = 0 := by
  obtain ⟨r, hr⟩ := main_no_error argv env root h
  simp [programExitCode, hr]

/-- Witness for C8: an unknown option exits with code 0. -/
theorem C8_exit_code_witness :
    programExitCode ["screenshot_capture.py", "--bogus"] calmEnv "/proj" = 0 :=
  C8_exit_code_zero ["screenshot_capture.py", "--bogus"] calmEnv "/proj" (fun i => rfl)

/-- C9: the Markdown-listing mode mutates the filesystem even though it only
reads — it unconditionally creates the output directory when absent, so
afterwards the directory exists and the subsequent existence check on it is
always true. -/
theorem C9_update_readme_mutates_filesystem (root : String) (fs listing : List String) :
    screenshots_dir root ∈ (update_readme_with_screenshots root fs listing).1 ∧
    (update_readme_with_screenshots root fs listing).2.1 = true ∧
    (screenshots_dir root ∉ fs → (update_readme_with_screenshots root fs listing).1 ≠ fs) := by
  have hmem : screenshots_dir root ∈ makedirs fs (screenshots_dir root) := by
    by_cases h : screenshots_dir root ∈ fs <;> simp [makedirs, h]
  refine ⟨hmem, decide_eq_true hmem, ?_⟩
  intro h heq
  have heq2 : makedirs fs (screenshots_dir root) = fs := heq
  rw [makedirs, if_neg h] at heq2
  have hlen := congrArg List.length heq2
  simp only [List.length_cons] at hlen
  omega

/-- Witness for C9: starting from an empty filesystem, the listing mode
leaves the filesystem changed. -/
theorem C9_update_readme_witness :
    (update_readme_with_screenshots "/proj" [] []).1 ≠ [] :=
  (C9_update_readme_mutates_filesystem "/proj" [] []).2.2 (by decide)

/-! ## Timestamp shape (C6) -/

lemma padDigits_length (w : Nat) : ∀ n, (padDigits w n).length = w := by
  induction w with
  | zero => intro n; rfl
  | succ w ih => intro n; simp [padDigits, ih]

lemma padDigits_add (w1 w2 n : Nat) :
    padDigits (w1 + w2) n = padDigits w1 (n / 10 ^ w2) ++ padDigits w2 n := by
  induction w2 generalizing n with
  | zero => simp [padDigits]
  | succ w2 ih =>
    have hd : n / 10 / 10 ^ w2 = n / 10 ^ (w2 + 1) := by
      rw [Nat.div_div_eq_div_mul, pow_succ, Nat.mul_comm]
    calc padDigits (w1 + (w2 + 1)) n
        = padDigits (w1 + w2) (n / 10) ++ [decDigit n] := rfl
      _ = (padDigits w1 (n / 10 / 10 ^ w2) ++ padDigits w2 (n / 10)) ++ [decDigit n] := by
          rw [ih]
      _ = padDigits w1 (n / 10 ^ (w2 + 1)) ++ (padDigits w2 (n / 10) ++ [decDigit n]) := by
          rw [hd, List.append_assoc]
      _ = padDigits w1 (n / 10 ^ (w2 + 1)) ++ padDigits (w2 + 1) n := rfl

lemma decDigit_isDigit (n : Nat) : (decDigit n).isDigit = true := by
  have h : n % 10 < 10 := Nat.mod_lt _ (by norm_num)
  show (Char.ofNat (48 + n % 10)).isDigit = true
  revert h
  generalize n % 10 = k
  intro h
  interval_cases k <;> decide

lemma padDigits_digits (w : Nat) : ∀ n, ∀ c ∈ padDigits w n, c.isDigit = true := by
  induction w with
  | zero => intro n c hc; simp [padDigits] at hc
  | succ w ih =>
    intro n c hc
    simp only [padDigits, List.mem_append, List.mem_singleton] at hc
    rcases hc with hc | hc
    · exact ih _ c hc
    · subst hc; exact decDigit_isDigit n

lemma padSix_split (n : Nat) : padDigits 6 n = padDigits 3 (n / 1000) ++ padDigits 3 n := by
  have h := padDigits_add 3 3 n
  norm_num at h
  exact h

lemma take_append_length_sub (A B : List Char) (k : Nat) (hB : B.length = k) :
    (A ++ B).take ((A ++ B).length - k) = A := by
  have h1 : (A ++ B).length - k = A.length := by simp [List.length_append, hB]
  rw [h1, List.take_left]

lemma timestampChars_eq (dt : DateTime) :
    timestampChars dt =
      padDigits 4 dt.year ++ padDigits 2 dt.month ++ padDigits 2 dt.day ++ '_' ::
        (padDigits 2 dt.hour ++ padDigits 2 dt.minute ++ padDigits 2 dt.second) ++ '_' ::
        padDigits 3 (dt.micro / 1000) := by
  have hX : strftimeYmdHMSf dt =
      (padDigits 4 dt.year ++ padDigits 2 dt.month ++ padDigits 2 dt.day ++ '_' ::
        (padDigits 2 dt.hour ++ padDigits 2 dt.minute ++ padDigits 2 dt.second) ++ '_' ::
        padDigits 3 (dt.micro / 1000)) ++ padDigits 3 dt.micro := by
    rw [strftimeYmdHMSf, padSix_split]
    simp [List.append_assoc, List.cons_append]
  simp only [timestampChars]
  rw [hX]
  exact take_append_length_sub _ _ 3 (padDigits_length 3 dt.micro)

lemma timestamp_shape (dt : DateTime) : IsTimestamp (timestampChars dt) := by
  rw [timestampChars_eq]
  refine ⟨padDigits 4 dt.year ++ padDigits 2 dt.month ++ padDigits 2 dt.day,
    padDigits 2 dt.hour ++ padDigits 2 dt.minute ++ padDigits 2 dt.second,
    padDigits 3 (dt.micro / 1000), ?_, ?_, ?_, ?_, ?_⟩
  · simp [List.append_assoc, List.cons_append]
  · simp [List.length_append, padDigits_length]
  · simp [List.length_append, padDigits_length]
  · exact padDigits_length 3 _
  · intro c hc
    simp only [List.mem_append] at hc
    have h1 := padDigits_digits 4 dt.year c
    have h2 := padDigits_digits 2 dt.month c
    have h3 := padDigits_digits 2 dt.day c
    have h4 := padDigits_digits 2 dt.hour c
    have h5 := padDigits_digits 2 dt.minute c
    have h6 := padDigits_digits 2 dt.second c
    have h7 := padDigits_digits 3 (dt.micro / 1000) c
    tauto

/-- C6: a successful capture returns a path inside the output directory
whose filename is `<prefix>_<timestamp>.png`, where the timestamp has the
shape `YYYYMMDD_HHMMSS_mmm` (8, 6 and 3 digits separated by underscores)
and its three-digit final field is the millisecond part of the capture
time (`microseconds / 1000`, zero-padded to width 3). -/
theorem C6_success_filename_pattern (root pfx : String) (dt : DateTime)
    (ev : CaptureEvent) (fp : String) (hv : dt.Valid)
    (h : take_screenshot root pfx dt ev = .ok (some fp)) :
    fp = screenshots_dir root ++ "/" ++
        (pfx ++ "_" ++ String.mk (timestampChars dt) ++ ".png") ∧
    IsTimestamp (timestampChars dt) ∧
    timestampChars dt =
      padDigits 4 dt.year ++ padDigits 2 dt.month ++ padDigits 2 dt.day ++ '_' ::
        (padDigits 2 dt.hour ++ padDigits 2 dt.minute ++ padDigits 2 dt.second) ++ '_' ::
        padDigits 3 (dt.micro / 1000) := by
  refine ⟨?_, timestamp_shape dt, timestampChars_eq dt⟩
  rw [take_screenshot_eq] at h
  simp only [Except.ok.injEq] at h
  cases ev with
  | completed rc ex =>
    by_cases hc : rc = 0 ∧ ex = true
    · simp only [takeResult, if_pos hc, Option.some.injEq] at h
      exact h.symm
    · simp [takeResult, if_neg hc] at h
  | raisedCalledProcessError => simp [takeResult] at h
  | raisedKeyboardInterrupt => simp [takeResult] at h

/-- Witness for C6 at the capture time 2024-03-07 09:05:03.123456. -/
theorem C6_success_filename_witness :
    dt0.Valid ∧
    ("/proj/WaveSimScreenshots/wave_sim_20240307_090503_123.png" =
        screenshots_dir "/proj" ++ "/" ++
          ("wave_sim" ++ "_" ++ String.mk (timestampChars dt0) ++ ".png") ∧
      IsTimestamp (timestampChars dt0) ∧
      timestampChars dt0 =
        padDigits 4 dt0.year ++ padDigits 2 dt0.month ++ padDigits 2 dt0.day ++ '_' ::
          (padDigits 2 dt0.hour ++ padDigits 2 dt0.minute ++ padDigits 2 dt0.second) ++ '_' ::
          padDigits 3 (dt0.micro / 1000)) :=
  ⟨by decide,
   C6_success_filename_pattern "/proj" "wave_sim" dt0 (.completed 0 true)
     "/proj/WaveSimScreenshots/wave_sim_20240307_090503_123.png" (by decide) rfl⟩

/-! ## Markdown generation (C3) -/

lemma lexLe_total : ∀ a b : List Char, lexLe a b = true ∨ lexLe b a = true := by
  intro a
  induction a with
  | nil => intro b; left; rfl
  | cons c as ih =>
    intro b
    cases b with
    | nil => right; rfl
    | cons d bs =>
      rcases lt_trichotomy c d with h | h | h
      · left; simp [lexLe, h]
      · subst h
        rcases ih bs with h2 | h2
        · left; simp [lexLe, h2]
        · right; simp [lexLe, h2]
      · right; simp [lexLe, h]

lemma lexLe_trans :
    ∀ a b c : List Char, lexLe a b = true → lexLe b c = true → lexLe a c = true := by
  intro a
  induction a with
  | nil => intro b c _ _; rfl
  | cons x as ih =>
    intro b c hab hbc
    cases b with
    | nil => simp [lexLe] at hab
    | cons y bs =>
      cases c with
      | nil => simp [lexLe] at hbc
      | cons z cs =>
        simp only [lexLe] at hab hbc ⊢
        rcases lt_trichotomy x y with h1 | h1 | h1
        · rcases lt_trichotomy y z with h2 | h2 | h2
          · simp [lt_trans h1 h2]
          · subst h2; simp [h1]
          · rw [if_neg (lt_asymm h2), if_neg (ne_of_gt h2)] at hbc
            simp at hbc
        · subst h1
          rcases lt_trichotomy x z with h2 | h2 | h2
          · simp [h2]
          · subst h2
            rw [if_neg (lt_irrefl x), if_pos rfl] at hab hbc ⊢
            exact ih bs cs hab hbc
          · rw [if_neg (lt_asymm h2), if_neg (ne_of_gt h2)] at hbc
            simp at hbc
        · rw [if_neg (lt_asymm h1), if_neg (ne_of_gt h1)] at hab
          simp at hab

instance : IsTotal String pyLe := ⟨fun a b => lexLe_total a.data b.data⟩

instance : IsTrans String pyLe := ⟨fun a b c hab hbc => lexLe_trans a.data b.data c.data hab hbc⟩

lemma mkMarkdown_foldl (l : List String) : ∀ init : String,
    l.foldl (fun md f => md ++ embedLine f) init = init ++ joinLines (l.map embedLine) := by
  induction l with
  | nil => intro init; simp [joinLines]
  | cons x xs ih =>
    intro init
    simp only [List.foldl_cons, List.map_cons, joinLines]
    rw [ih (init ++ embedLine x), String.append_assoc]

lemma mkMarkdown_eq (files : List String) :
    mkMarkdown files = "## Screenshots\n\n" ++ joinLines (files.map embedLine) :=
  mkMarkdown_foldl files "## Screenshots\n\n"

lemma mem_makedirs_self (fs : List String) (d : String) : d ∈ makedirs fs d := by
  by_cases h : d ∈ fs <;> simp [makedirs, h]

lemma update_markdown_eq (root : String) (fs listing : List String) :
    (update_readme_with_screenshots root fs listing).2.2 =
      (if (readmeFiles listing).isEmpty then none
       else some (mkMarkdown (readmeFiles listing))) := by
  have hmem := mem_makedirs_self fs (screenshots_dir root)
  simp [update_readme_with_screenshots, create_screenshots_directory, readmeFiles, hmem]

/-- C3: the Markdown mode emits one image-embed line per PNG file, listing
the PNG files in alphabetical (code-point lexicographic) order and skipping
non-PNG files; with zero PNG files present it emits no Markdown (printing
the "none found" notice instead). -/
theorem C3_update_readme_markdown (root : String) (fs listing : List String) :
    ((update_readme_with_screenshots root fs listing).2.2 = none ↔
      listing.filter isPngFile = []) ∧
    (∀ s, (update_readme_with_screenshots root fs listing).2.2 = some s →
      ∃ l : List String, l.Perm (listing.filter isPngFile) ∧ List.Sorted pyLe l ∧
        s = "## Screenshots\n\n" ++ joinLines (l.map embedLine)) := by
  rw [update_markdown_eq]
  have hperm : (readmeFiles listing).Perm (listing.filter isPngFile) :=
    List.perm_insertionSort pyLe (listing.filter isPngFile)
  constructor
  · constructor
    · intro h
      by_cases he : (readmeFiles listing).isEmpty
      · have hnil : readmeFiles listing = [] := List.isEmpty_iff.mp he
        rw [hnil] at hperm
        exact (hperm.symm).eq_nil
      · rw [if_neg he] at h
        simp at h
    · intro h
      have hnil : readmeFiles listing = [] := by
        rw [h] at hperm
        exact hperm.eq_nil
      simp [hnil]
  · intro s hs
    by_cases he : (readmeFiles listing).isEmpty
    · rw [if_pos he] at hs
      simp at hs
    · rw [if_neg he] at hs
      simp only [Option.some.injEq] at hs
      refine ⟨readmeFiles listing, hperm,
        List.sorted_insertionSort pyLe (listing.filter isPngFile), ?_⟩
      rw [← hs, mkMarkdown_eq]

/-- Witness for C3: a listing with two PNG files (one uppercase-extension)
and one text file produces exactly two embed lines, in sorted order. -/
theorem C3_update_readme_witness :
    ∃ l : List String, l.Perm (["b.png", "a.PNG", "x.txt"].filter isPngFile) ∧
      List.Sorted pyLe l ∧
      "## Screenshots\n\n![Wave Simulation - A.Png](WaveSimScreenshots/a.PNG)\n\n![Wave Simulation - B](WaveSimScreenshots/b.png)\n\n" =
        "## Screenshots\n\n" ++ joinLines (l.map embedLine) :=
  (C3_update_readme_markdown "/p" [] ["b.png", "a.PNG", "x.txt"]).2 _ rfl

/-! ## PNG detection and alt text (C10) -/

lemma replaceAux_of_length_le (pat rep : List Char) :
    ∀ (l : List Char) (skip : Nat), l.length ≤ skip → replaceAux pat rep skip l = [] := by
  intro l
  induction l with
  | nil => intro skip _; cases skip <;> rfl
  | cons c rest ih =>
    intro skip hs
    cases skip with
    | zero => simp at hs
    | succ k =>
      have hr : rest.length ≤ k := by
        simp only [List.length_cons] at hs
        omega
      exact ih k hr

lemma listReplace_append_pat (pat rep : List Char) (hpat : pat ≠ []) :
    ∀ stem : List Char,
      (∀ i < stem.length, ¬ pat.isPrefixOf ((stem ++ pat).drop i) = true) →
      listReplace pat rep (stem ++ pat) = stem ++ rep := by
  intro stem
  induction stem with
  | nil =>
    intro _
    cases pat with
    | nil => exact absurd rfl hpat
    | cons p ps =>
      show replaceAux (p :: ps) rep 0 ((p :: ps)) = [] ++ rep
      have hpre : (p :: ps).isPrefixOf (p :: ps) = true :=
        List.isPrefixOf_iff_prefix.mpr (List.prefix_refl _)
      simp only [List.nil_append, replaceAux, hpre, if_true, List.length_cons,
        Nat.add_sub_cancel]
      rw [replaceAux_of_length_le (p :: ps) rep ps ps.length le_rfl, List.append_nil]
  | cons c stem ih =>
    intro hno
    have h0 := hno 0 (by simp)
    rw [List.cons_append, List.drop_zero] at h0
    show replaceAux pat rep 0 ((c :: stem) ++ pat) = (c :: stem) ++ rep
    rw [List.cons_append]
    have hno2 : ∀ i < stem.length, ¬ pat.isPrefixOf ((stem ++ pat).drop i) = true := by
      intro i hi
      have := hno (i + 1) (by simp only [List.length_cons]; omega)
      rw [List.cons_append] at this
      simpa using this
    cases pat with
    | nil => exact absurd rfl hpat
    | cons p ps =>
      simp only [replaceAux, h0, if_false]
      rw [List.cons_append]
      exact congrArg (c :: ·) (ih hno2)

/-- C10 counterexample: the file `a.png.png` is listed (its lowercased name
ends in `.png`), but the emitted alt text is derived by removing every
occurrence of `.png`, not by dropping only the suffix as the claim states:
the code produces `A` where the claimed derivation produces `A.Png`. -/
theorem C10_counterexample_alt_text :
    isPngFile "a.png.png" = true ∧ altName "a.png.png" ≠ claimAltName "a.png.png" := by
  constructor
  · rfl
  · decide

/-- C10 (amended): PNG detection is case-insensitive — a file is listed
exactly when it is in the directory listing and its name, lowercased, ends
with `.png`; the alt text is derived from the original filename by removing
every occurrence of the lowercase substring `.png` (not only the suffix),
then replacing underscores with spaces and title-casing.  When `.png`
occurs in the name only as the final suffix, this coincides with the
claimed drop-the-suffix derivation. -/
theorem C10_png_detection_and_alt_text (listing : List String) (f : String) :
    (f ∈ readmeFiles listing ↔ f ∈ listing ∧ isPngFile f = true) ∧
    (∀ stem : List Char, f.data = stem ++ pngExt → NoEarlyPng stem →
      altName f = claimAltName f) := by
  constructor
  · rw [readmeFiles,
      (List.perm_insertionSort pyLe (listing.filter isPngFile)).mem_iff,
      List.mem_filter]
  · intro stem hf hocc
    have h1 : listReplace pngExt [] f.data = stem := by
      rw [hf]
      have h := listReplace_append_pat pngExt [] (by decide) stem hocc
      rw [h, List.append_nil]
    have hsuf : pngExt.isSuffixOf f.data = true := by
      rw [hf]
      exact List.isSuffixOf_iff_suffix.mpr ⟨stem, rfl⟩
    have h2 : f.data.take (f.data.length - 4) = stem := by
      rw [hf]
      exact take_append_length_sub stem pngExt 4 rfl
    rw [altName, claimAltName, h1, if_pos hsuf, h2]

/-- Witness for C10: the uppercase-extension file `a.PNG` is detected and
listed, and for `a_b.png`, whose only `.png` occurrence is the suffix, the
code's alt text coincides with the drop-the-suffix derivation. -/
theorem C10_png_detection_witness :
    ("a.PNG" ∈ readmeFiles ["a.PNG", "c.txt"] ↔
      "a.PNG" ∈ ["a.PNG", "c.txt"] ∧ isPngFile "a.PNG" = true) ∧
    altName "a_b.png" = claimAltName "a_b.png" :=
  ⟨(C10_png_detection_and_alt_text ["a.PNG", "c.txt"] "a.PNG").1,
   (C10_png_detection_and_alt_text ["a_b.png"] "a_b.png").2 ['a', '_', 'b']
     rfl (by decide)⟩

end ScreenshotCapture
